import Mathlib

/-!
Shallow embedding of the FGD schema-differencing engine found in
`fgdcomparator.py` (namespace `Fgdc`) and `csgo_to_css_comparison.py`
(namespace `Ccs`).

Modelling conventions, chosen once and applied uniformly:

* A Python dict built by a comprehension is an association list in key
  insertion order; re-inserting an existing key overwrites the value in
  place (last write wins) without moving the key (`dinsert`).
* Python `set(...)` iteration order is unspecified at runtime; it is
  modelled deterministically as first-insertion order (`dedupFirst`),
  and set difference / intersection / union as order-preserving filters
  on those deduplicated key lists.  Membership semantics coincide with
  the Python semantics; only the (unspecified) iteration order is
  pinned down.
* `str.lower()` is modelled as ASCII lowering (`pyLower`); the names in
  an FGD are ASCII identifiers.
* `sorted(...)` on strings is `List.insertionSort` with the code-point
  lexicographic order, realised on `String.data` so that it is
  kernel-computable; this matches the Python string comparison.
* `int(flag.value)` is `pyParseInt`; a `ValueError` raised by Python is
  the `none` case, propagated as `Except.error` where the source leaves
  the exception uncaught and as a skip where the source catches
  `ValueError`.
* `print(...)` warnings inside the `Ccs` spawnflag comparison are
  modelled as an extra returned list of warning strings (the second
  component of the result pair); callers that ignore stdout use `.fst`.
* The `metadata` block of `Fgdc.compare_fgds` (two version labels and a
  wall-clock timestamp) carries no diff entries and is omitted from the
  report structure.
-/

deriving instance DecidableEq for Except

/-! ## Data model: the parsed FGD object graph consumed by both scripts -/

structure FgdChoice where
  value : String
  display_name : String
deriving DecidableEq

structure FgdEntityProperty where
  name : String
  value_type : String
  readonly : Bool
  report : Bool
  display_name : String
  default_value : String
  description : String
  choices : Option (List FgdChoice)
deriving DecidableEq

structure FgdEntitySpawnflag where
  value : String
  display_name : String
  default_value : Bool
deriving DecidableEq

inductive IODirection where
  | input
  | output
deriving DecidableEq

structure FgdIOItem where
  direction : IODirection
  name : String
  value_type : String
  description : String
deriving DecidableEq

/-- One raw definition clause of an entity, e.g. a base(...) or size(...)
clause; in the source this is a Python dict with a name field and an
args list. -/
structure FgdDefClause where
  name : String
  args : List String
deriving DecidableEq

structure FgdEntity where
  name : String
  class_type : String
  description : String
  definitions : List FgdDefClause
  properties : List FgdEntityProperty
  spawnflags : List FgdEntitySpawnflag
  inputs : List FgdIOItem
  outputs : List FgdIOItem
deriving DecidableEq

structure FgdEditorData where
  class_type : String
  name : Option String
  data : List (String × String)
deriving DecidableEq

structure Fgd where
  entities : List FgdEntity
  editor_data : List FgdEditorData
deriving DecidableEq

/-! ## Python collection primitives -/

/-- Python dict insertion: an existing key is overwritten in place
(keeping its position), a new key is appended at the end. -/
def dinsert {κ α : Type} [DecidableEq κ] (k : κ) (v : α) : List (κ × α) → List (κ × α)
  | [] => [(k, v)]
  | p :: rest => if p.1 = k then (k, v) :: rest else p :: dinsert k v rest

/-- A Python dict comprehension over a list, keyed by keyOf. -/
def dictOf {κ α : Type} [DecidableEq κ] (keyOf : α → κ) (l : List α) : List (κ × α) :=
  l.foldl (fun d x => dinsert (keyOf x) x d) []

def dkeys {κ α : Type} (d : List (κ × α)) : List κ :=
  d.map Prod.fst

def dlookup {κ α : Type} [DecidableEq κ] (k : κ) : List (κ × α) → Option α
  | [] => none
  | p :: rest => if p.1 = k then some p.2 else dlookup k rest

/-- Python defaultdict(list) append: d[k].append(v). -/
def gappend {κ α : Type} [DecidableEq κ] (k : κ) (v : α) : List (κ × List α) → List (κ × List α)
  | [] => [(k, [v])]
  | p :: rest => if p.1 = k then (p.1, p.2 ++ [v]) :: rest else p :: gappend k v rest

def dedupFirstAux (seen : List String) : List String → List String
  | [] => []
  | x :: xs => if x ∈ seen then dedupFirstAux seen xs else x :: dedupFirstAux (x :: seen) xs

/-- Python set(...) of strings, modelled with first-insertion iteration
order. -/
def dedupFirst (l : List String) : List String :=
  dedupFirstAux [] l

/-- ASCII lower casing of one character, as str.lower() does on the
ASCII identifiers appearing in an FGD. -/
def charLower (c : Char) : Char :=
  if 65 ≤ c.toNat ∧ c.toNat ≤ 90 then Char.ofNat (c.toNat + 32) else c

/-- Python str.lower() on ASCII identifiers. -/
def pyLower (s : String) : String :=
  String.mk (s.data.map charLower)

/-- Code-point comparison of strings, placed on the character lists so
that it is kernel-computable; agrees with the Python string order. -/
def strLE (a b : String) : Prop :=
  a.data ≤ b.data

instance : DecidableRel strLE := fun a b =>
  inferInstanceAs (Decidable (a.data ≤ b.data))

/-- Python sorted(...) over strings. -/
def sortStr (l : List String) : List String :=
  List.insertionSort strLE l

def isDigitChar (c : Char) : Bool :=
  48 ≤ c.toNat && c.toNat ≤ 57

def digitsToNat (l : List Char) : Nat :=
  l.foldl (fun acc c => 10 * acc + (c.toNat - 48)) 0

/-- Python int(s) on the flag-value strings: an optional minus sign
followed by decimal digits; none where Python raises ValueError. -/
def pyParseInt (s : String) : Option Int :=
  match s.data with
  | [] => none
  | c :: rest =>
    if c = Char.ofNat 45 then
      if rest ≠ [] ∧ rest.all isDigitChar then some (-(digitsToNat rest : Int)) else none
    else
      if (c :: rest).all isDigitChar then some ((digitsToNat (c :: rest) : Int)) else none

/-- A differing field recorded as an (old, new) pair, nothing recorded
when the two sides are equal. -/
def diffField {α : Type} [DecidableEq α] (a b : α) : Option (α × α) :=
  if a = b then none else some (a, b)

/-- Shape shared by the keyed diffs: added keys, removed keys, and a
per-key item diff map whose keys carry the original casing. -/
structure MapDiff (β : Type) where
  new : List String
  removed : List String
  modified : List (String × β)
deriving DecidableEq

/-- The sort key Python uses for one definition clause, namely the
items of the clause dict sorted by field label, which orders clauses
by args first and then by name; realised on character lists so that it
is kernel-computable. -/
def clauseLE (c d : FgdDefClause) : Prop :=
  c.args.map String.data < d.args.map String.data ∨
    (c.args.map String.data = d.args.map String.data ∧ c.name.data ≤ d.name.data)

instance : DecidableRel clauseLE := fun c d =>
  inferInstanceAs (Decidable (_ ∨ _))

/-! ## fgdcomparator.py -/

namespace Fgdc

structure PropItemDiff where
  value_type : Option (String × String)
  readonly : Option (Bool × Bool)
  report : Option (Bool × Bool)
  display_name : Option (String × String)
  default_value : Option (String × String)
  description : Option (String × String)
  choices : Option (Option (List FgdChoice) × Option (List FgdChoice))
deriving DecidableEq

def emptyPropItemDiff : PropItemDiff :=
  { value_type := none, readonly := none, report := none, display_name := none,
    default_value := none, description := none, choices := none }

/-- Python truthiness of a choices attribute: None and the empty list
are both rendered as None in the recorded diff. -/
def truthyChoices : Option (List FgdChoice) → Option (List FgdChoice)
  | none => none
  | some l => if l = [] then none else some l

def compare_property (css_prop csgo_prop : FgdEntityProperty) : Option PropItemDiff :=
  let d : PropItemDiff :=
    { value_type := diffField css_prop.value_type csgo_prop.value_type
      readonly := diffField css_prop.readonly csgo_prop.readonly
      report := diffField css_prop.report csgo_prop.report
      display_name := diffField css_prop.display_name csgo_prop.display_name
      default_value := diffField css_prop.default_value csgo_prop.default_value
      description := diffField css_prop.description csgo_prop.description
      choices :=
        if css_prop.choices = csgo_prop.choices then none
        else some (truthyChoices css_prop.choices, truthyChoices csgo_prop.choices) }
  if d = emptyPropItemDiff then none else some d

/-- The common shape of compare_properties and compare_io in
fgdcomparator.py: key both lists by lower-cased name, emit sorted added
and removed key lists, and run the item comparator on common keys,
recording item diffs under the original-cased name from the new side. -/
def keyedDiffSorted {α β : Type} (itemCmp : α → α → Option β) (nameOf : α → String)
    (css csgo : List α) : MapDiff β :=
  let cssD := dictOf (fun x => pyLower (nameOf x)) css
  let csgoD := dictOf (fun x => pyLower (nameOf x)) csgo
  { new := sortStr ((dkeys csgoD).filter (fun k => decide (¬ k ∈ dkeys cssD)))
    removed := sortStr ((dkeys cssD).filter (fun k => decide (¬ k ∈ dkeys csgoD)))
    modified := ((dkeys cssD).filter (fun k => decide (k ∈ dkeys csgoD))).foldl
      (fun acc k =>
        match dlookup k cssD, dlookup k csgoD with
        | some a, some b =>
          match itemCmp a b with
          | some d => dinsert (nameOf b) d acc
          | none => acc
        | _, _ => acc) [] }

def compare_properties (css_props csgo_props : List FgdEntityProperty) :
    Option (MapDiff PropItemDiff) :=
  let d := keyedDiffSorted compare_property (fun p => p.name) css_props csgo_props
  if d.new = [] ∧ d.removed = [] ∧ d.modified = [] then none else some d

structure IOItemDiff where
  value_type : Option (String × String)
  description : Option (String × String)
deriving DecidableEq

/-- fgdcomparator.py compares only value_type and description of two io
items; the direction of the items is never inspected. -/
def compare_io_item (css_io csgo_io : FgdIOItem) : Option IOItemDiff :=
  let d : IOItemDiff :=
    { value_type := diffField css_io.value_type csgo_io.value_type
      description := diffField css_io.description csgo_io.description }
  if d = { value_type := none, description := none } then none else some d

def compare_io (css_io csgo_io : List FgdIOItem) (io_type : String) :
    Option (MapDiff IOItemDiff) :=
  let d := keyedDiffSorted compare_io_item (fun x => x.name) css_io csgo_io
  if d.new = [] ∧ d.removed = [] ∧ d.modified = [] then none else some d

structure DefinitionsDiff where
  css : List FgdDefClause
  csgo : List FgdDefClause
  added : List FgdDefClause
  removed : List FgdDefClause
deriving DecidableEq

def isBaseClause (d : FgdDefClause) : Bool :=
  decide (d.name = "base")

def compare_definitions (css_defs csgo_defs : List FgdDefClause) : Option DefinitionsDiff :=
  let css_bases := css_defs.filter isBaseClause
  let csgo_bases := csgo_defs.filter isBaseClause
  if css_bases = csgo_bases then none
  else some
    { css := css_bases
      csgo := csgo_bases
      added := csgo_bases.filter (fun b => decide (¬ b ∈ css_bases))
      removed := css_bases.filter (fun b => decide (¬ b ∈ csgo_bases)) }

structure SpawnflagItemDiff where
  display_name : Option (String × String)
  default_value : Option (Bool × Bool)
deriving DecidableEq

def compare_spawnflag (css_flag csgo_flag : FgdEntitySpawnflag) : Option SpawnflagItemDiff :=
  let d : SpawnflagItemDiff :=
    { display_name := diffField css_flag.display_name csgo_flag.display_name
      default_value := diffField css_flag.default_value csgo_flag.default_value }
  if d = { display_name := none, default_value := none } then none else some d

structure SpawnflagsDiff where
  new : List FgdEntitySpawnflag
  removed : List FgdEntitySpawnflag
  modified : List (String × SpawnflagItemDiff)
deriving DecidableEq

/-- The dict comprehension keyed by int(flag.value); the first value
that fails to parse raises, aborting the whole comparison. -/
def flagDict (flags : List FgdEntitySpawnflag) :
    Except String (List (Int × FgdEntitySpawnflag)) :=
  flags.foldlM
    (fun d fl =>
      match pyParseInt fl.value with
      | some v => .ok (dinsert v fl d)
      | none => .error ("invalid literal for int() with base 10: " ++ fl.value)) []

def emptySpawnflagsDiff : SpawnflagsDiff :=
  { new := [], removed := [], modified := [] }

def compare_spawnflags (css_flags csgo_flags : List FgdEntitySpawnflag) :
    Except String (Option SpawnflagsDiff) := do
  let cssD ← flagDict css_flags
  let csgoD ← flagDict csgo_flags
  let all_values := dkeys cssD ++ (dkeys csgoD).filter (fun v => decide (¬ v ∈ dkeys cssD))
  let d := all_values.foldl
    (fun (acc : SpawnflagsDiff) v =>
      match dlookup v cssD, dlookup v csgoD with
      | some cf, none => { acc with removed := acc.removed ++ [cf] }
      | none, some gf => { acc with new := acc.new ++ [gf] }
      | some cf, some gf =>
        match compare_spawnflag cf gf with
        | some fd => { acc with modified := dinsert (toString v) fd acc.modified }
        | none => acc
      | none, none => acc)
    emptySpawnflagsDiff
  pure (if d.new = [] ∧ d.removed = [] ∧ d.modified = [] then none else some d)

structure ChangeCounts where
  new : Nat
  removed : Nat
  modified : Nat
deriving DecidableEq

structure ChangesSummary where
  properties : ChangeCounts
  inputs : ChangeCounts
  outputs : ChangeCounts
  spawnflags : ChangeCounts
deriving DecidableEq

def count_changes {β : Type} : Option (MapDiff β) → ChangeCounts
  | none => { new := 0, removed := 0, modified := 0 }
  | some d => { new := d.new.length, removed := d.removed.length, modified := d.modified.length }

def count_changes_flags : Option SpawnflagsDiff → ChangeCounts
  | none => { new := 0, removed := 0, modified := 0 }
  | some d => { new := d.new.length, removed := d.removed.length, modified := d.modified.length }

/-- The weighted complexity heuristic; it reads the class_type and
definitions keys of the per-entity diff dict and the changes summary,
accumulating the score exactly as the sequence of += statements in the
source does. -/
def calculate_porting_complexity (class_type_changed : Bool)
    (defs : Option DefinitionsDiff) (s : ChangesSummary) : String :=
  let s0 : ℚ := 0
  let s1 := if class_type_changed then s0 + 3 else s0
  let s2 := match defs with
    | some dd => s1 + (dd.added.length : ℚ) * 2 + (dd.removed.length : ℚ) * 2
    | none => s1
  let s3 := s2 + (s.properties.new : ℚ) * 2 + (s.properties.removed : ℚ) * 2
    + (s.properties.modified : ℚ)
  let s4 := s3 + (s.inputs.new : ℚ) * (3 / 2) + (s.inputs.removed : ℚ) * (3 / 2)
    + (s.inputs.modified : ℚ) * (1 / 2)
  let s5 := s4 + (s.outputs.new : ℚ) * (3 / 2) + (s.outputs.removed : ℚ) * (3 / 2)
    + (s.outputs.modified : ℚ) * (1 / 2)
  let s6 := s5 + (s.spawnflags.new : ℚ) + (s.spawnflags.removed : ℚ)
    + (s.spawnflags.modified : ℚ) * (1 / 2)
  if s6 > 20 then "High" else if s6 > 10 then "Medium" else "Low"

structure EntityDiff where
  class_type : Option (String × String)
  description : Option (String × String)
  definitions : Option DefinitionsDiff
  properties : Option (MapDiff PropItemDiff)
  spawnflags : Option SpawnflagsDiff
  inputs : Option (MapDiff IOItemDiff)
  outputs : Option (MapDiff IOItemDiff)
  changes_summary : Option ChangesSummary
  backward_porting_complexity : Option String
deriving DecidableEq

def compare_entity (css_entity csgo_entity : FgdEntity) : Except String (Option EntityDiff) := do
  let ct := diffField css_entity.class_type csgo_entity.class_type
  let ds := diffField css_entity.description csgo_entity.description
  let defs := compare_definitions css_entity.definitions csgo_entity.definitions
  let props := compare_properties css_entity.properties csgo_entity.properties
  let flags ← compare_spawnflags css_entity.spawnflags csgo_entity.spawnflags
  let ins := compare_io css_entity.inputs csgo_entity.inputs "input"
  let outs := compare_io css_entity.outputs csgo_entity.outputs "output"
  if ct = none ∧ ds = none ∧ defs = none ∧ props = none ∧ flags = none ∧ ins = none
      ∧ outs = none then
    pure none
  else
    let s : ChangesSummary :=
      { properties := count_changes props, inputs := count_changes ins,
        outputs := count_changes outs, spawnflags := count_changes_flags flags }
    pure (some
      { class_type := ct, description := ds, definitions := defs, properties := props,
        spawnflags := flags, inputs := ins, outputs := outs,
        changes_summary := some s,
        backward_porting_complexity := some (calculate_porting_complexity ct.isSome defs s) })

structure PortingIssue where
  entity : String
  property : Option String
  issue : String
  severity : String
deriving DecidableEq

structure Report where
  new_entities : List String
  removed_entities : List String
  modified_entities : List (String × EntityDiff)
  backward_porting_issues : List PortingIssue
deriving DecidableEq

def entityNames (f : Fgd) : List String :=
  dedupFirst (f.entities.map (fun e => pyLower e.name))

/-- The generator expression next(e for e in fgd.entities if
e.name.lower() == name). -/
def findEntity (f : Fgd) (n : String) : Option FgdEntity :=
  f.entities.find? (fun e => decide (pyLower e.name = n))

/-- One iteration of the backward-porting loop: a High issue for a name
with no CSS entity, else one Medium issue per property name (original
casing) present in the CSGO entity only; the only-if-missing none case
of the CSGO lookup cannot occur at the call site. -/
def porting_issues_for (css_fgd csgo_fgd : Fgd) (n : String) : List PortingIssue :=
  match findEntity csgo_fgd n, findEntity css_fgd n with
  | some _, none =>
    [{ entity := n, property := none,
       issue := "New entity in CSGO, not present in CSS", severity := "High" }]
  | some ge, some ce =>
    ((dedupFirst (ge.properties.map (fun p => p.name))).filter
        (fun p => decide (¬ p ∈ ce.properties.map (fun q => q.name)))).map
      (fun p => { entity := n, property := some p,
                  issue := "Property exists in CSGO but not in CSS", severity := "Medium" })
  | none, _ => []

/-- One iteration of the modified-entities loop; the none cases of the
lookups cannot occur at the call site. -/
def modified_step (css_fgd csgo_fgd : Fgd) (acc : List (String × EntityDiff)) (n : String) :
    Except String (List (String × EntityDiff)) :=
  match findEntity css_fgd n, findEntity csgo_fgd n with
  | some ce, some ge =>
    match compare_entity ce ge with
    | .error e => .error e
    | .ok none => .ok acc
    | .ok (some d) => .ok (dinsert ge.name d acc)
  | _, _ => .ok acc

def compare_fgds (css_fgd csgo_fgd : Fgd) : Except String Report := do
  let css_names := entityNames css_fgd
  let csgo_names := entityNames csgo_fgd
  let modified ← (css_names.filter (fun n => decide (n ∈ csgo_names))).foldlM
      (modified_step css_fgd csgo_fgd) []
  pure
    { new_entities := sortStr (csgo_names.filter (fun n => decide (¬ n ∈ css_names)))
      removed_entities := sortStr (css_names.filter (fun n => decide (¬ n ∈ csgo_names)))
      modified_entities := modified
      backward_porting_issues :=
        csgo_names.foldl (fun acc n => acc ++ porting_issues_for css_fgd csgo_fgd n) [] }

end Fgdc

/-! ## csgo_to_css_comparison.py -/

namespace Ccs

structure CPropItemDiff where
  value_type : Option (String × String)
  readonly : Option (Bool × Bool)
  report : Option (Bool × Bool)
  display_name : Option (String × String)
  default_value : Option (String × String)
  description : Option (String × String)
  choices : Option (List FgdChoice × List FgdChoice)
deriving DecidableEq

def emptyCPropItemDiff : CPropItemDiff :=
  { value_type := none, readonly := none, report := none, display_name := none,
    default_value := none, description := none, choices := none }

def sortChoices (l : List FgdChoice) : List FgdChoice :=
  List.insertionSort (fun a b : FgdChoice => strLE a.value b.value) l

def choiceList : Option (List FgdChoice) → List FgdChoice
  | none => []
  | some l => l

def compare_property (css_prop csgo_prop : FgdEntityProperty) : Option CPropItemDiff :=
  let base : CPropItemDiff :=
    { value_type := diffField css_prop.value_type csgo_prop.value_type
      readonly := diffField css_prop.readonly csgo_prop.readonly
      report := diffField css_prop.report csgo_prop.report
      display_name := diffField css_prop.display_name csgo_prop.display_name
      default_value := diffField css_prop.default_value csgo_prop.default_value
      description := diffField css_prop.description csgo_prop.description
      choices := none }
  let d :=
    if css_prop.choices = none ∧ csgo_prop.choices = none then base
    else
      let cs := sortChoices (choiceList css_prop.choices)
      let gs := sortChoices (choiceList csgo_prop.choices)
      if cs = gs then base else { base with choices := some (cs, gs) }
  if d = emptyCPropItemDiff then none else some d

/-- The common shape of compare_properties and compare_io in
csgo_to_css_comparison.py: like the Fgdc variant but the added and
removed key lists are emitted in raw set-iteration order, without
sorting. -/
def keyedDiff {α β : Type} (itemCmp : α → α → Option β) (nameOf : α → String)
    (css csgo : List α) : MapDiff β :=
  let cssD := dictOf (fun x => pyLower (nameOf x)) css
  let csgoD := dictOf (fun x => pyLower (nameOf x)) csgo
  { new := (dkeys csgoD).filter (fun k => decide (¬ k ∈ dkeys cssD))
    removed := (dkeys cssD).filter (fun k => decide (¬ k ∈ dkeys csgoD))
    modified := ((dkeys cssD).filter (fun k => decide (k ∈ dkeys csgoD))).foldl
      (fun acc k =>
        match dlookup k cssD, dlookup k csgoD with
        | some a, some b =>
          match itemCmp a b with
          | some d => dinsert (nameOf b) d acc
          | none => acc
        | _, _ => acc) [] }

def compare_properties (css_props csgo_props : List FgdEntityProperty) :
    Option (MapDiff CPropItemDiff) :=
  if css_props = [] ∧ csgo_props = [] then none
  else
    let d := keyedDiff compare_property (fun p => p.name) css_props csgo_props
    if d.new = [] ∧ d.removed = [] ∧ d.modified = [] then none else some d

structure CIOItemDiff where
  type_tag : Option (String × String)
  value_type : Option (String × String)
  description : Option (String × String)
deriving DecidableEq

def ioClassName : IODirection → String
  | .input => "FgdEntityInput"
  | .output => "FgdEntityOutput"

/-- csgo_to_css_comparison.py first checks type(css_io) != type(csgo_io)
and reports the two class names under a type key, returning before any
field comparison. -/
def compare_io_item (css_io csgo_io : FgdIOItem) : Option CIOItemDiff :=
  if css_io.direction ≠ csgo_io.direction then
    some { type_tag := some (ioClassName css_io.direction, ioClassName csgo_io.direction),
           value_type := none, description := none }
  else
    let d : CIOItemDiff :=
      { type_tag := none
        value_type := diffField css_io.value_type csgo_io.value_type
        description := diffField css_io.description csgo_io.description }
    if d = { type_tag := none, value_type := none, description := none } then none else some d

def compare_io (css_io csgo_io : List FgdIOItem) : Option (MapDiff CIOItemDiff) :=
  let d := keyedDiff compare_io_item (fun x => x.name) css_io csgo_io
  if d.new = [] ∧ d.removed = [] ∧ d.modified = [] then none else some d

def compare_spawnflag (css_flag csgo_flag : FgdEntitySpawnflag) :
    Option Fgdc.SpawnflagItemDiff :=
  let d : Fgdc.SpawnflagItemDiff :=
    { display_name := diffField css_flag.display_name csgo_flag.display_name
      default_value := diffField css_flag.default_value csgo_flag.default_value }
  if d = { display_name := none, default_value := none } then none else some d

structure CSpawnflagsDiff where
  new : List String
  removed : List String
  modified : List (String × Fgdc.SpawnflagItemDiff)
deriving DecidableEq

/-- The grouping loops: flags whose value fails int() are skipped with a
printed warning (collected as the second component); the rest are
grouped by parsed value. -/
def flagGroupsWarn (label : String) (flags : List FgdEntitySpawnflag) :
    List (Int × List FgdEntitySpawnflag) × List String :=
  flags.foldl
    (fun acc fl =>
      match pyParseInt fl.value with
      | some v => (gappend v fl acc.1, acc.2)
      | none => (acc.1, acc.2 ++ ["Invalid flag value in " ++ label ++ " FGD: " ++ fl.value]))
    ([], [])

def flagEntryString (v : Int) (dn : String) : String :=
  toString v ++ " (" ++ dn ++ ")"

def compare_spawnflags (css_flags csgo_flags : List FgdEntitySpawnflag) :
    Option CSpawnflagsDiff × List String :=
  let cssG := flagGroupsWarn "CS:S" css_flags
  let csgoG := flagGroupsWarn "CS:GO" csgo_flags
  let cssD := cssG.1
  let csgoD := csgoG.1
  let newL := ((dkeys csgoD).filter (fun v => decide (¬ v ∈ dkeys cssD))).foldl
    (fun acc v =>
      acc ++ ((dlookup v csgoD).getD []).map (fun fl => flagEntryString v fl.display_name)) []
  let remL := ((dkeys cssD).filter (fun v => decide (¬ v ∈ dkeys csgoD))).foldl
    (fun acc v =>
      acc ++ ((dlookup v cssD).getD []).map (fun fl => flagEntryString v fl.display_name)) []
  let modL := ((dkeys cssD).filter (fun v => decide (v ∈ dkeys csgoD))).foldl
    (fun acc v =>
      let cl := (dlookup v cssD).getD []
      let gl := (dlookup v csgoD).getD []
      (cl.zip gl).foldl
        (fun acc2 pq =>
          match compare_spawnflag pq.1 pq.2 with
          | some fd => dinsert (flagEntryString v pq.2.display_name) fd acc2
          | none => acc2) acc) []
  (if newL = [] ∧ remL = [] ∧ modL = [] then none
   else some { new := newL, removed := remL, modified := modL },
   cssG.2 ++ csgoG.2)

structure EditorDataDiff where
  new : List FgdEditorData
  removed : List FgdEditorData
  modified : List ((String × Option String) × (List (String × String) × List (String × String)))
deriving DecidableEq

/-- The dict key of a metadata block: (class_type, name) when the name
is truthy, else the class_type alone; both None and the empty string
are falsy names. -/
def edKey (ed : FgdEditorData) : String × Option String :=
  match ed.name with
  | some n => if n = "" then (ed.class_type, none) else (ed.class_type, some n)
  | none => (ed.class_type, none)

def compare_editor_data (css_ed csgo_ed : List FgdEditorData) : EditorDataDiff :=
  let cssD := dictOf edKey css_ed
  let csgoD := dictOf edKey csgo_ed
  { new := ((dkeys csgoD).filter (fun k => decide (¬ k ∈ dkeys cssD))).filterMap
      (fun k => dlookup k csgoD)
    removed := ((dkeys cssD).filter (fun k => decide (¬ k ∈ dkeys csgoD))).filterMap
      (fun k => dlookup k cssD)
    modified := ((dkeys cssD).filter (fun k => decide (k ∈ dkeys csgoD))).foldl
      (fun acc k =>
        match dlookup k cssD, dlookup k csgoD with
        | some a, some b => if a.data = b.data then acc else dinsert k (a.data, b.data) acc
        | _, _ => acc) [] }

def sortClauses (l : List FgdDefClause) : List FgdDefClause :=
  List.insertionSort clauseLE l

structure CEntityDiff where
  class_type : Option (String × String)
  description : Option (String × String)
  definitions : Option (List FgdDefClause × List FgdDefClause)
  properties : Option (MapDiff CPropItemDiff)
  spawnflags : Option CSpawnflagsDiff
  inputs : Option (MapDiff CIOItemDiff)
  outputs : Option (MapDiff CIOItemDiff)
deriving DecidableEq

def emptyCEntityDiff : CEntityDiff :=
  { class_type := none, description := none, definitions := none, properties := none,
    spawnflags := none, inputs := none, outputs := none }

def compare_entity (css_entity csgo_entity : FgdEntity) : CEntityDiff :=
  { class_type := diffField css_entity.class_type csgo_entity.class_type
    description := diffField css_entity.description csgo_entity.description
    definitions :=
      let sc := sortClauses css_entity.definitions
      let sg := sortClauses csgo_entity.definitions
      if sc = sg then none else some (sc, sg)
    properties := compare_properties css_entity.properties csgo_entity.properties
    spawnflags := (compare_spawnflags css_entity.spawnflags csgo_entity.spawnflags).1
    inputs := compare_io css_entity.inputs csgo_entity.inputs
    outputs := compare_io css_entity.outputs csgo_entity.outputs }

structure CReport where
  new_entities : List String
  removed_entities : List String
  modified_entities : List (String × CEntityDiff)
  editor_data_changes : EditorDataDiff
deriving DecidableEq

def compare_fgds (css_fgd csgo_fgd : Fgd) : CReport :=
  let css_names := Fgdc.entityNames css_fgd
  let csgo_names := Fgdc.entityNames csgo_fgd
  { new_entities := csgo_names.filter (fun n => decide (¬ n ∈ css_names))
    removed_entities := css_names.filter (fun n => decide (¬ n ∈ csgo_names))
    modified_entities :=
      (css_names.filter (fun n => decide (n ∈ csgo_names))).foldl
        (fun acc n =>
          match Fgdc.findEntity css_fgd n, Fgdc.findEntity csgo_fgd n with
          | some ce, some ge =>
            let d := compare_entity ce ge
            if d = emptyCEntityDiff then acc else dinsert ge.name d acc
          | _, _ => acc) []
    editor_data_changes := compare_editor_data css_fgd.editor_data csgo_fgd.editor_data }

end Ccs

/-! ## Proof-support definitions and concrete sample inputs -/

/-- Well-formedness used by the idempotence theorem for the Fgdc
variant: every spawnflag value parses as an integer, so that the
uncaught int() conversion cannot raise. -/
def fgdFlagsParse (f : Fgd) : Prop :=
  ∀ e ∈ f.entities, ∀ fl ∈ e.spawnflags, (pyParseInt fl.value).isSome

instance (f : Fgd) : Decidable (fgdFlagsParse f) :=
  inferInstanceAs
    (Decidable (∀ e ∈ f.entities, ∀ fl ∈ e.spawnflags, (pyParseInt fl.value).isSome = true))

/-- The grouping of Ccs.flagGroupsWarn with the warning channel
dropped; used to state that the groups do not depend on the label and
ignore unparseable flags. -/
def flagGroups (flags : List FgdEntitySpawnflag) : List (Int × List FgdEntitySpawnflag) :=
  flags.foldl
    (fun g fl =>
      match pyParseInt fl.value with
      | some v => gappend v fl g
      | none => g) []

def mkProp (n dn dv : String) : FgdEntityProperty :=
  { name := n, value_type := "string", readonly := false, report := false,
    display_name := dn, default_value := dv, description := "", choices := none }

def mkEntity (n : String) : FgdEntity :=
  { name := n, class_type := "PointClass", description := "", definitions := [],
    properties := [], spawnflags := [], inputs := [], outputs := [] }

def emptyFgd : Fgd :=
  { entities := [], editor_data := [] }

/-- A nontrivial sample schema exercising every collection kind. -/
def wSchema : Fgd :=
  { entities := [{ mkEntity "Ent" with
      definitions := [{ name := "base", args := ["Targetname"] }],
      properties := [mkProp "speed" "Speed" "100"],
      spawnflags := [{ value := "1", display_name := "Locked", default_value := false }],
      inputs := [{ direction := .input, name := "Kill", value_type := "void",
                   description := "" }] }],
    editor_data := [{ class_type := "mat", name := none, data := [("k", "v")] }] }

/-- Two entities whose names are in reverse lexicographic order. -/
def baSchema : Fgd :=
  { entities := [mkEntity "b", mkEntity "a"], editor_data := [] }

def highIssueFor (n : String) : Fgdc.PortingIssue :=
  { entity := n, property := none, issue := "New entity in CSGO, not present in CSS",
    severity := "High" }

def baReport : Fgdc.Report :=
  { new_entities := ["a", "b"], removed_entities := [], modified_entities := [],
    backward_porting_issues := [highIssueFor "b", highIssueFor "a"] }

/-- Schemas whose single entities differ only by a trailing space in
the name. -/
def trailSchemaOld : Fgd :=
  { entities := [mkEntity "func_door "], editor_data := [] }

def trailSchemaNew : Fgd :=
  { entities := [mkEntity "FUNC_DOOR"], editor_data := [] }

def pFooOne : FgdEntityProperty := mkProp "Foo" "dn" "1"

def pFOOTwo : FgdEntityProperty := mkProp "FOO" "dn" "2"

def qfooOne : FgdEntityProperty := mkProp "foo" "dn" "1"

def dupFlagA : FgdEntitySpawnflag := { value := "1", display_name := "A", default_value := false }

def dupFlagB : FgdEntitySpawnflag := { value := "1", display_name := "B", default_value := true }

def badFlag : FgdEntitySpawnflag :=
  { value := "banana", display_name := "Locked", default_value := false }

def goodFlag : FgdEntitySpawnflag :=
  { value := "2", display_name := "Silent", default_value := true }

/-- Matched entities whose only difference is the casing of a property
name. -/
def caseSchemaOld : Fgd :=
  { entities := [{ mkEntity "ent" with properties := [pFooOne] }], editor_data := [] }

def caseSchemaNew : Fgd :=
  { entities := [{ mkEntity "ent" with properties := [qfooOne] }], editor_data := [] }

def caseReport : Fgdc.Report :=
  { new_entities := [], removed_entities := [], modified_entities := [],
    backward_porting_issues :=
      [{ entity := "ent", property := some "foo",
         issue := "Property exists in CSGO but not in CSS", severity := "Medium" }] }

def newtSchema : Fgd :=
  { entities := [mkEntity "newt"], editor_data := [] }

def newtReport : Fgdc.Report :=
  { new_entities := ["newt"], removed_entities := [], modified_entities := [],
    backward_porting_issues := [highIssueFor "newt"] }

/-- An entity with one input named Foo and one with one output named
Foo. -/
def ioEntOld : FgdEntity :=
  { mkEntity "ent" with
    inputs := [{ direction := .input, name := "Foo", value_type := "void", description := "" }] }

def ioEntNew : FgdEntity :=
  { mkEntity "ent" with
    outputs := [{ direction := .output, name := "Foo", value_type := "void", description := "" }] }

def baseA : FgdDefClause := { name := "base", args := ["A"] }

def baseB : FgdDefClause := { name := "base", args := ["B"] }

def sizeClause : FgdDefClause := { name := "size", args := ["x"] }

def colorClause : FgdDefClause := { name := "color", args := ["y"] }

/-! ## Helper lemmas -/

theorem diffField_self {α : Type} [DecidableEq α] (a : α) : diffField a a = none := by
  simp [diffField]

theorem mem_dedupFirstAux (x : String) :
    ∀ (l seen : List String), x ∈ dedupFirstAux seen l ↔ x ∈ l ∧ x ∉ seen := by
  intro l
  induction l with
  | nil => intro seen; simp [dedupFirstAux]
  | cons y ys ih =>
    intro seen
    by_cases hy : y ∈ seen
    · rw [dedupFirstAux, if_pos hy, ih]
      constructor
      · rintro ⟨h1, h2⟩; exact ⟨List.mem_cons_of_mem y h1, h2⟩
      · rintro ⟨h1, h2⟩
        rcases List.mem_cons.mp h1 with h1 | h1
        · subst h1; exact absurd hy h2
        · exact ⟨h1, h2⟩
    · rw [dedupFirstAux, if_neg hy]
      rw [List.mem_cons, ih]
      constructor
      · rintro (rfl | ⟨h1, h2⟩)
        · exact ⟨List.mem_cons_self x ys, hy⟩
        · exact ⟨List.mem_cons_of_mem y h1, fun hc => h2 (List.mem_cons_of_mem y hc)⟩
      · rintro ⟨h1, h2⟩
        rcases List.mem_cons.mp h1 with h1 | h1
        · exact Or.inl h1
        · by_cases hxy : x = y
          · exact Or.inl hxy
          · refine Or.inr ⟨h1, ?_⟩
            intro hc
            rcases List.mem_cons.mp hc with hc | hc
            · exact hxy hc
            · exact h2 hc

theorem mem_dedupFirst (x : String) (l : List String) : x ∈ dedupFirst l ↔ x ∈ l := by
  rw [dedupFirst, mem_dedupFirstAux]
  simp

theorem nodup_dedupFirstAux : ∀ (l seen : List String), (dedupFirstAux seen l).Nodup := by
  intro l
  induction l with
  | nil => intro seen; simp [dedupFirstAux]
  | cons y ys ih =>
    intro seen
    by_cases hy : y ∈ seen
    · rw [dedupFirstAux, if_pos hy]; exact ih seen
    · rw [dedupFirstAux, if_neg hy, List.nodup_cons]
      refine ⟨?_, ih (y :: seen)⟩
      intro hmem
      rw [mem_dedupFirstAux] at hmem
      exact hmem.2 (List.mem_cons_self y seen)

theorem nodup_dedupFirst (l : List String) : (dedupFirst l).Nodup :=
  nodup_dedupFirstAux l []

theorem filter_not_mem_self {α : Type} [DecidableEq α] (l : List α) :
    l.filter (fun k => decide (¬ k ∈ l)) = [] := by
  rw [List.filter_eq_nil_iff]
  intro a ha
  simp [ha]

theorem filter_mem_self {α : Type} [DecidableEq α] (l : List α) :
    l.filter (fun k => decide (k ∈ l)) = l := by
  rw [List.filter_eq_self]
  intro a ha
  simp [ha]

theorem sortStr_nil : sortStr [] = [] := rfl

theorem keyed_mod_fold_self {α β : Type} (itemCmp : α → α → Option β) (nameOf : α → String)
    (D : List (String × α)) (hcmp : ∀ a, itemCmp a a = none) :
    ∀ (ks : List String) (acc : List (String × β)),
      ks.foldl (fun acc k =>
        match dlookup k D, dlookup k D with
        | some a, some b =>
          match itemCmp a b with
          | some d => dinsert (nameOf b) d acc
          | none => acc
        | _, _ => acc) acc = acc := by
  intro ks
  induction ks with
  | nil => intro acc; rfl
  | cons k ks ih =>
    intro acc
    cases h : dlookup k D with
    | none => simp only [List.foldl_cons, h]; exact ih acc
    | some a => simp only [List.foldl_cons, h, hcmp a]; exact ih acc

theorem keyedDiffSorted_self {α β : Type} (itemCmp : α → α → Option β) (nameOf : α → String)
    (l : List α) (hcmp : ∀ a, itemCmp a a = none) :
    Fgdc.keyedDiffSorted itemCmp nameOf l l = { new := [], removed := [], modified := [] } := by
  rw [Fgdc.keyedDiffSorted]
  simp only [MapDiff.mk.injEq]
  refine ⟨?_, ?_, ?_⟩
  · rw [filter_not_mem_self]; rfl
  · rw [filter_not_mem_self]; rfl
  · exact keyed_mod_fold_self itemCmp nameOf _ hcmp _ _

theorem keyedDiff_self {α β : Type} (itemCmp : α → α → Option β) (nameOf : α → String)
    (l : List α) (hcmp : ∀ a, itemCmp a a = none) :
    Ccs.keyedDiff itemCmp nameOf l l = { new := [], removed := [], modified := [] } := by
  rw [Ccs.keyedDiff]
  simp only [MapDiff.mk.injEq]
  refine ⟨?_, ?_, ?_⟩
  · rw [filter_not_mem_self]
  · rw [filter_not_mem_self]
  · exact keyed_mod_fold_self itemCmp nameOf _ hcmp _ _

theorem compare_property_self_fgdc (p : FgdEntityProperty) : Fgdc.compare_property p p = none := by
  simp [Fgdc.compare_property, diffField_self, Fgdc.emptyPropItemDiff]

theorem compare_properties_self_fgdc (l : List FgdEntityProperty) :
    Fgdc.compare_properties l l = none := by
  rw [Fgdc.compare_properties, keyedDiffSorted_self _ _ l compare_property_self_fgdc]
  simp

theorem compare_io_item_self_fgdc (x : FgdIOItem) : Fgdc.compare_io_item x x = none := by
  simp [Fgdc.compare_io_item, diffField_self]

theorem compare_io_self_fgdc (l : List FgdIOItem) (t : String) :
    Fgdc.compare_io l l t = none := by
  rw [Fgdc.compare_io, keyedDiffSorted_self _ _ l compare_io_item_self_fgdc]
  simp

theorem compare_definitions_self_fgdc (l : List FgdDefClause) :
    Fgdc.compare_definitions l l = none := by
  simp [Fgdc.compare_definitions]

theorem compare_spawnflag_self_fgdc (f : FgdEntitySpawnflag) :
    Fgdc.compare_spawnflag f f = none := by
  simp [Fgdc.compare_spawnflag, diffField_self]

theorem except_ok_bind {ε α β : Type} (a : α) (f : α → Except ε β) :
    (Except.ok a >>= f) = f a := rfl

theorem flagDict_fold_ok :
    ∀ (l : List FgdEntitySpawnflag) (init : List (Int × FgdEntitySpawnflag)),
      (∀ fl ∈ l, (pyParseInt fl.value).isSome) →
      ∃ D, l.foldlM (fun d fl =>
          match pyParseInt fl.value with
          | some v => Except.ok (dinsert v fl d)
          | none => Except.error ("invalid literal for int() with base 10: " ++ fl.value)) init
        = Except.ok (ε := String) D := by
  intro l
  induction l with
  | nil => intro init h; exact ⟨init, rfl⟩
  | cons fl fls ih =>
    intro init h
    have h1 : (pyParseInt fl.value).isSome := h fl (List.mem_cons_self fl fls)
    cases hv : pyParseInt fl.value with
    | none => rw [hv] at h1; simp at h1
    | some v =>
      obtain ⟨D, hD⟩ := ih (dinsert v fl init) (fun x hx => h x (List.mem_cons_of_mem fl hx))
      refine ⟨D, ?_⟩
      simp only [List.foldlM_cons, hv]
      simpa [Except.bind] using hD

theorem flagDict_ok (l : List FgdEntitySpawnflag)
    (h : ∀ fl ∈ l, (pyParseInt fl.value).isSome) :
    ∃ D, Fgdc.flagDict l = Except.ok D :=
  flagDict_fold_ok l [] h

theorem sf_fold_self (D : List (Int × FgdEntitySpawnflag)) :
    ∀ (vs : List Int) (acc : Fgdc.SpawnflagsDiff),
      vs.foldl (fun acc v =>
        match dlookup v D, dlookup v D with
        | some cf, none => { acc with removed := acc.removed ++ [cf] }
        | none, some gf => { acc with new := acc.new ++ [gf] }
        | some cf, some gf =>
          match Fgdc.compare_spawnflag cf gf with
          | some fd => { acc with modified := dinsert (toString v) fd acc.modified }
          | none => acc
        | none, none => acc) acc = acc := by
  intro vs
  induction vs with
  | nil => intro acc; rfl
  | cons v vs ih =>
    intro acc
    cases h : dlookup v D with
    | none => simp only [List.foldl_cons, h]; exact ih acc
    | some f => simp only [List.foldl_cons, h, compare_spawnflag_self_fgdc f]; exact ih acc

theorem compare_spawnflags_self_fgdc (l : List FgdEntitySpawnflag)
    (h : ∀ fl ∈ l, (pyParseInt fl.value).isSome) :
    Fgdc.compare_spawnflags l l = Except.ok none := by
  obtain ⟨D, hD⟩ := flagDict_ok l h
  rw [Fgdc.compare_spawnflags, hD]
  simp only [except_ok_bind]
  rw [filter_not_mem_self, List.append_nil, sf_fold_self D (dkeys D) Fgdc.emptySpawnflagsDiff]
  rfl

theorem compare_entity_self_fgdc (e : FgdEntity)
    (h : ∀ fl ∈ e.spawnflags, (pyParseInt fl.value).isSome) :
    Fgdc.compare_entity e e = Except.ok none := by
  rw [Fgdc.compare_entity, compare_spawnflags_self_fgdc e.spawnflags h]
  simp only [except_ok_bind]
  rw [diffField_self, diffField_self, compare_definitions_self_fgdc,
    compare_properties_self_fgdc, compare_io_self_fgdc, compare_io_self_fgdc]
  simp [pure, Except.pure]

theorem modified_step_self_fgdc (A : Fgd) (h : fgdFlagsParse A)
    (acc : List (String × Fgdc.EntityDiff)) (n : String) :
    Fgdc.modified_step A A acc n = Except.ok acc := by
  rw [Fgdc.modified_step]
  cases he : Fgdc.findEntity A n with
  | none => rfl
  | some e =>
    have hmem : e ∈ A.entities := List.mem_of_find?_eq_some he
    have hce := compare_entity_self_fgdc e (h e hmem)
    simp only [hce]

theorem foldlM_const_except {α β : Type} (step : β → α → Except String β)
    (hstep : ∀ b a, step b a = Except.ok b) :
    ∀ (l : List α) (b : β), l.foldlM step b = Except.ok b := by
  intro l
  induction l with
  | nil => intro b; rfl
  | cons a as ih =>
    intro b
    rw [List.foldlM_cons, hstep]
    simpa [except_ok_bind] using ih b

theorem foldl_append_flatMap {α β : Type} (g : α → List β) :
    ∀ (l : List α) (acc : List β),
      l.foldl (fun acc a => acc ++ g a) acc = acc ++ l.flatMap g := by
  intro l
  induction l with
  | nil => intro acc; simp
  | cons a as ih => intro acc; simp [List.foldl_cons, ih]

theorem porting_issues_for_self (A : Fgd) (n : String) :
    Fgdc.porting_issues_for A A n = [] := by
  rw [Fgdc.porting_issues_for]
  cases he : Fgdc.findEntity A n with
  | none => rfl
  | some e =>
    have hfil : (dedupFirst (e.properties.map (fun p => p.name))).filter
        (fun p => decide (¬ p ∈ e.properties.map (fun q => q.name))) = [] := by
      rw [List.filter_eq_nil_iff]
      intro a ha
      rw [mem_dedupFirst] at ha
      simp [ha]
    simp only [hfil, List.map_nil]

theorem c1_fgdc_self (A : Fgd) (h : fgdFlagsParse A) :
    Fgdc.compare_fgds A A =
      Except.ok { new_entities := [], removed_entities := [], modified_entities := [],
                  backward_porting_issues := [] } := by
  rw [Fgdc.compare_fgds]
  rw [foldlM_const_except (Fgdc.modified_step A A) (modified_step_self_fgdc A h)]
  simp only [except_ok_bind]
  rw [filter_not_mem_self]
  rw [foldl_append_flatMap (Fgdc.porting_issues_for A A)]
  have hflat : (Fgdc.entityNames A).flatMap (Fgdc.porting_issues_for A A) = [] := by
    rw [List.flatMap_eq_nil_iff]
    intro n hn
    exact porting_issues_for_self A n
  rw [hflat]
  rfl

theorem compare_property_self_ccs (p : FgdEntityProperty) : Ccs.compare_property p p = none := by
  rw [Ccs.compare_property]
  by_cases hc : p.choices = none
  · simp [hc, diffField_self, Ccs.emptyCPropItemDiff]
  · simp [hc, diffField_self, Ccs.emptyCPropItemDiff]

theorem compare_properties_self_ccs (l : List FgdEntityProperty) :
    Ccs.compare_properties l l = none := by
  rw [Ccs.compare_properties]
  by_cases he : l = []
  · simp [he]
  · rw [if_neg (by simp [he])]
    rw [keyedDiff_self _ _ l compare_property_self_ccs]
    simp

theorem compare_io_item_self_ccs (x : FgdIOItem) : Ccs.compare_io_item x x = none := by
  simp [Ccs.compare_io_item, diffField_self]

theorem compare_io_self_ccs (l : List FgdIOItem) : Ccs.compare_io l l = none := by
  rw [Ccs.compare_io, keyedDiff_self _ _ l compare_io_item_self_ccs]
  simp

theorem compare_spawnflag_self_ccs (f : FgdEntitySpawnflag) : Ccs.compare_spawnflag f f = none := by
  simp [Ccs.compare_spawnflag, diffField_self]

theorem flagGroupsWarn_fold_fst (label : String) :
    ∀ (l : List FgdEntitySpawnflag) (g : List (Int × List FgdEntitySpawnflag)) (w : List String),
      (l.foldl (fun acc fl =>
          match pyParseInt fl.value with
          | some v => (gappend v fl acc.1, acc.2)
          | none => (acc.1, acc.2 ++ ["Invalid flag value in " ++ label ++ " FGD: " ++ fl.value]))
        (g, w)).1
      = l.foldl (fun g2 fl =>
          match pyParseInt fl.value with
          | some v => gappend v fl g2
          | none => g2) g := by
  intro l
  induction l with
  | nil => intro g w; rfl
  | cons fl fls ih =>
    intro g w
    cases hv : pyParseInt fl.value with
    | none => simp only [List.foldl_cons, hv]; exact ih g _
    | some v => simp only [List.foldl_cons, hv]; exact ih (gappend v fl g) w

theorem flagGroupsWarn_fst (label : String) (l : List FgdEntitySpawnflag) :
    (Ccs.flagGroupsWarn label l).1 = flagGroups l := by
  rw [Ccs.flagGroupsWarn, flagGroups]
  exact flagGroupsWarn_fold_fst label l [] []

theorem zip_self_fold_ccs :
    ∀ (fl : List FgdEntitySpawnflag) (v : Int) (acc : List (String × Fgdc.SpawnflagItemDiff)),
      ((fl.zip fl).foldl (fun acc2 pq =>
        match Ccs.compare_spawnflag pq.1 pq.2 with
        | some fd => dinsert (Ccs.flagEntryString v pq.2.display_name) fd acc2
        | none => acc2) acc) = acc := by
  intro fl
  induction fl with
  | nil => intro v acc; rfl
  | cons x xs ih =>
    intro v acc
    simp only [List.zip_cons_cons, List.foldl_cons, compare_spawnflag_self_ccs x]
    exact ih v acc

theorem foldl_const_acc {α β : Type} : ∀ (l : List α) (acc : β),
    l.foldl (fun acc _ => acc) acc = acc := by
  intro l
  induction l with
  | nil => intro acc; rfl
  | cons a as ih => intro acc; simp only [List.foldl_cons]; exact ih acc

theorem sf_mod_fold_self_ccs (D : List (Int × List FgdEntitySpawnflag)) :
    ∀ (vs : List Int) (acc : List (String × Fgdc.SpawnflagItemDiff)),
      vs.foldl (fun acc v =>
        ((((dlookup v D).getD []).zip ((dlookup v D).getD [])).foldl
          (fun acc2 pq =>
            match Ccs.compare_spawnflag pq.1 pq.2 with
            | some fd => dinsert (Ccs.flagEntryString v pq.2.display_name) fd acc2
            | none => acc2) acc)) acc = acc := by
  intro vs acc
  simp only [zip_self_fold_ccs]
  exact foldl_const_acc vs acc

theorem compare_spawnflags_fst_self_ccs (l : List FgdEntitySpawnflag) :
    (Ccs.compare_spawnflags l l).1 = none := by
  rw [Ccs.compare_spawnflags]
  rw [flagGroupsWarn_fst "CS:S" l, flagGroupsWarn_fst "CS:GO" l]
  rw [filter_not_mem_self]
  simp only [List.foldl_nil]
  rw [sf_mod_fold_self_ccs (flagGroups l) _ []]
  simp

theorem editor_mod_fold_self (D : List ((String × Option String) × FgdEditorData)) :
    ∀ (ks : List (String × Option String))
      (acc : List ((String × Option String) × (List (String × String) × List (String × String)))),
      ks.foldl (fun acc k =>
        match dlookup k D, dlookup k D with
        | some a, some b => if a.data = b.data then acc else dinsert k (a.data, b.data) acc
        | _, _ => acc) acc = acc := by
  intro ks
  induction ks with
  | nil => intro acc; rfl
  | cons k ks ih =>
    intro acc
    cases h : dlookup k D with
    | none => simp only [List.foldl_cons, h]; exact ih acc
    | some a => simp only [List.foldl_cons, h, if_pos rfl]; exact ih acc

theorem compare_editor_data_self (eds : List FgdEditorData) :
    Ccs.compare_editor_data eds eds = { new := [], removed := [], modified := [] } := by
  rw [Ccs.compare_editor_data]
  simp only [Ccs.EditorDataDiff.mk.injEq]
  refine ⟨?_, ?_, ?_⟩
  · rw [List.filterMap_eq_nil_iff]
    intro a ha
    rw [List.mem_filter] at ha
    obtain ⟨h1, h2⟩ := ha
    simp [h1] at h2
  · rw [List.filterMap_eq_nil_iff]
    intro a ha
    rw [List.mem_filter] at ha
    obtain ⟨h1, h2⟩ := ha
    simp [h1] at h2
  · exact editor_mod_fold_self _ _ _

theorem compare_entity_self_ccs (e : FgdEntity) :
    Ccs.compare_entity e e = Ccs.emptyCEntityDiff := by
  rw [Ccs.compare_entity, Ccs.emptyCEntityDiff]
  rw [diffField_self, diffField_self, compare_properties_self_ccs,
    compare_spawnflags_fst_self_ccs, compare_io_self_ccs, compare_io_self_ccs]
  simp

theorem ccs_mod_fold_self (A : Fgd) :
    ∀ (ns : List String) (acc : List (String × Ccs.CEntityDiff)),
      ns.foldl (fun acc n =>
        match Fgdc.findEntity A n, Fgdc.findEntity A n with
        | some ce, some ge =>
          let d := Ccs.compare_entity ce ge
          if d = Ccs.emptyCEntityDiff then acc else dinsert ge.name d acc
        | _, _ => acc) acc = acc := by
  intro ns
  induction ns with
  | nil => intro acc; rfl
  | cons n ns ih =>
    intro acc
    cases h : Fgdc.findEntity A n with
    | none => simp only [List.foldl_cons, h]; exact ih acc
    | some e =>
      simp only [List.foldl_cons, h, compare_entity_self_ccs e, if_pos rfl]
      exact ih acc

theorem c1_ccs_self (A : Fgd) :
    Ccs.compare_fgds A A =
      { new_entities := [], removed_entities := [], modified_entities := [],
        editor_data_changes := { new := [], removed := [], modified := [] } } := by
  rw [Ccs.compare_fgds]
  simp only [Ccs.CReport.mk.injEq]
  refine ⟨?_, ?_, ?_, ?_⟩
  · rw [filter_not_mem_self]
  · rw [filter_not_mem_self]
  · exact ccs_mod_fold_self A _ _
  · exact compare_editor_data_self A.editor_data

/-! ## Claim theorems -/

/-- C1: comparing any schema A with itself yields an empty diff in both
report variants: no new or removed entities, no modified entities, no
backward-porting issues, and empty editor-data change collections.  The
hypothesis restricts A to schemas whose spawnflag values parse as
integers, which is what the data model guarantees; without it the Fgdc
variant raises on the int() conversion instead of returning a report. -/
theorem c1_compare_self_empty (A : Fgd) (h : fgdFlagsParse A) :
    Fgdc.compare_fgds A A =
      Except.ok { new_entities := [], removed_entities := [], modified_entities := [],
                  backward_porting_issues := [] }
    ∧ Ccs.compare_fgds A A =
      { new_entities := [], removed_entities := [], modified_entities := [],
        editor_data_changes := { new := [], removed := [], modified := [] } } :=
  ⟨c1_fgdc_self A h, c1_ccs_self A⟩

/-- C1 witness: the idempotence theorem applied to a concrete schema
with an entity carrying a base clause, a property, a spawnflag and an
input, plus an editor-data block. -/
theorem c1_compare_self_empty_witness :
    Fgdc.compare_fgds wSchema wSchema =
      Except.ok { new_entities := [], removed_entities := [], modified_entities := [],
                  backward_porting_issues := [] }
    ∧ Ccs.compare_fgds wSchema wSchema =
      { new_entities := [], removed_entities := [], modified_entities := [],
        editor_data_changes := { new := [], removed := [], modified := [] } } :=
  c1_compare_self_empty wSchema (by decide)

/-- C10: the editor-data comparison always returns a record with all
three collections (by construction it is a total function into the
three-field record type) and is installed in the report
unconditionally, so for two identical schemas the report still carries
an editor_data_changes entry with three empty collections, whereas the
property, spawnflag and io diffs all collapse to none on equal
inputs. -/
theorem c10_editor_data_always_present :
    (∀ css csgo : Fgd, (Ccs.compare_fgds css csgo).editor_data_changes =
        Ccs.compare_editor_data css.editor_data csgo.editor_data)
    ∧ (∀ eds : List FgdEditorData,
        Ccs.compare_editor_data eds eds = { new := [], removed := [], modified := [] })
    ∧ (∀ props : List FgdEntityProperty, Ccs.compare_properties props props = none)
    ∧ (∀ flags : List FgdEntitySpawnflag, (Ccs.compare_spawnflags flags flags).1 = none)
    ∧ (∀ ios : List FgdIOItem, Ccs.compare_io ios ios = none) :=
  ⟨fun _ _ => rfl, compare_editor_data_self, compare_properties_self_ccs,
    compare_spawnflags_fst_self_ccs, compare_io_self_ccs⟩

/-- C3: the exact weighted sum the source accumulates, written as one
closed formula: 3 for a class-type change, 2 per added or removed base
clause, 2 per added or removed property, 1 per modified property, 3/2
per added or removed input or output, 1/2 per modified input or output,
1 per added or removed spawnflag, 1/2 per modified spawnflag. -/
def specComplexityScore (class_type_changed : Bool)
    (defs : Option Fgdc.DefinitionsDiff) (s : Fgdc.ChangesSummary) : ℚ :=
  (if class_type_changed then 3 else 0)
    + (match defs with
       | some dd => 2 * (dd.added.length : ℚ) + 2 * (dd.removed.length : ℚ)
       | none => 0)
    + 2 * (s.properties.new : ℚ) + 2 * (s.properties.removed : ℚ) + (s.properties.modified : ℚ)
    + (3 / 2) * (s.inputs.new : ℚ) + (3 / 2) * (s.inputs.removed : ℚ)
    + (1 / 2) * (s.inputs.modified : ℚ)
    + (3 / 2) * (s.outputs.new : ℚ) + (3 / 2) * (s.outputs.removed : ℚ)
    + (1 / 2) * (s.outputs.modified : ℚ)
    + (s.spawnflags.new : ℚ) + (s.spawnflags.removed : ℚ)
    + (1 / 2) * (s.spawnflags.modified : ℚ)

theorem calc_eq_bucket (b : Bool) (defs : Option Fgdc.DefinitionsDiff)
    (s : Fgdc.ChangesSummary) :
    Fgdc.calculate_porting_complexity b defs s =
      if specComplexityScore b defs s > 20 then "High"
      else if specComplexityScore b defs s > 10 then "Medium" else "Low" := by
  cases b <;> cases defs <;>
    simp only [Fgdc.calculate_porting_complexity, specComplexityScore] <;> ring_nf

/-- C3: the reported complexity equals the bucketing of the closed
weighted sum specComplexityScore, and the bucket names characterise the
score exactly: High iff the score exceeds 20, Medium iff it exceeds 10
without exceeding 20, Low iff it is at most 10. -/
theorem c3_porting_complexity (b : Bool) (defs : Option Fgdc.DefinitionsDiff)
    (s : Fgdc.ChangesSummary) :
    (Fgdc.calculate_porting_complexity b defs s =
      if specComplexityScore b defs s > 20 then "High"
      else if specComplexityScore b defs s > 10 then "Medium" else "Low")
    ∧ (Fgdc.calculate_porting_complexity b defs s = "High" ↔
        specComplexityScore b defs s > 20)
    ∧ (Fgdc.calculate_porting_complexity b defs s = "Medium" ↔
        10 < specComplexityScore b defs s ∧ specComplexityScore b defs s ≤ 20)
    ∧ (Fgdc.calculate_porting_complexity b defs s = "Low" ↔
        specComplexityScore b defs s ≤ 10) := by
  have hb := calc_eq_bucket b defs s
  refine ⟨hb, ?_, ?_, ?_⟩
  · rw [hb]
    split_ifs with h1 h2
    · simp [h1]
    · constructor
      · intro hx; exact absurd hx (by decide)
      · intro hx; exact absurd hx h1
    · constructor
      · intro hx; exact absurd hx (by decide)
      · intro hx; exact absurd hx h1
  · rw [hb]
    split_ifs with h1 h2
    · constructor
      · intro hx; exact absurd hx (by decide)
      · rintro ⟨hgt, hle⟩; linarith
    · constructor
      · intro hx; exact ⟨h2, by linarith⟩
      · intro hx; rfl
    · constructor
      · intro hx; exact absurd hx (by decide)
      · rintro ⟨hgt, hle⟩; exact absurd hgt h2
  · rw [hb]
    split_ifs with h1 h2
    · constructor
      · intro hx; exact absurd hx (by decide)
      · intro hx; linarith
    · constructor
      · intro hx; exact absurd hx (by decide)
      · intro hx; linarith
    · constructor
      · intro hx; linarith [not_lt.mp h2]
      · intro hx; rfl

instance : IsTotal String strLE :=
  ⟨fun a b => le_total a.data b.data⟩

instance : IsTrans String strLE :=
  ⟨fun _ _ _ h1 h2 => le_trans h1 h2⟩

instance : IsAntisymm String strLE :=
  ⟨fun a b h1 h2 => String.toList_inj.mp (le_antisymm h1 h2)⟩

theorem sortStr_sorted (l : List String) : List.Sorted strLE (sortStr l) :=
  List.sorted_insertionSort strLE l

theorem keyedDiffSorted_new_sorted {α β : Type} (cmp : α → α → Option β) (nameOf : α → String)
    (a b : List α) : List.Sorted strLE (Fgdc.keyedDiffSorted cmp nameOf a b).new :=
  sortStr_sorted _

theorem keyedDiffSorted_removed_sorted {α β : Type} (cmp : α → α → Option β)
    (nameOf : α → String) (a b : List α) :
    List.Sorted strLE (Fgdc.keyedDiffSorted cmp nameOf a b).removed :=
  sortStr_sorted _

theorem except_bind_ok_iff {ε α β : Type} (x : Except ε α) (f : α → Except ε β) (b : β) :
    (x >>= f) = Except.ok b ↔ ∃ a, x = Except.ok a ∧ f a = Except.ok b := by
  cases x with
  | error e =>
    constructor
    · intro h; exact absurd h (by simp [show ((Except.error e : Except ε α) >>= f)
        = Except.error e from rfl])
    · rintro ⟨a, ha, hf⟩; exact absurd ha (by simp)
  | ok a =>
    rw [except_ok_bind]
    constructor
    · intro h; exact ⟨a, rfl, h⟩
    · rintro ⟨a2, ha, hf⟩; rw [Except.ok.inj ha]; exact hf

/-- C2 counterexample: in csgo_to_css_comparison.compare_fgds the
new_entities list is emitted in raw set-iteration order; with the new
schema holding entities named b then a it comes out as b before a,
which is not lexicographically sorted. -/
theorem c2_counterexample :
    (Ccs.compare_fgds emptyFgd baSchema).new_entities = ["b", "a"]
    ∧ ¬ List.Sorted strLE ["b", "a"] := by
  constructor
  · decide
  · decide

/-- C2 (amended): only the fgdcomparator variant sorts: its schema
level new and removed entity lists and the added and removed key lists
of its property and io diffs are sorted lexicographically, while the
spawnflag lists there and every added and removed list in the
csgo_to_css_comparison variant keep raw set-iteration order. -/
theorem c2_sorted_lists_amended :
    (∀ css csgo r, Fgdc.compare_fgds css csgo = Except.ok r →
      List.Sorted strLE r.new_entities ∧ List.Sorted strLE r.removed_entities)
    ∧ (∀ p1 p2 d, Fgdc.compare_properties p1 p2 = some d →
      List.Sorted strLE d.new ∧ List.Sorted strLE d.removed)
    ∧ (∀ i1 i2 t d, Fgdc.compare_io i1 i2 t = some d →
      List.Sorted strLE d.new ∧ List.Sorted strLE d.removed) := by
  refine ⟨?_, ?_, ?_⟩
  · intro css csgo r h
    rw [Fgdc.compare_fgds, except_bind_ok_iff] at h
    obtain ⟨m, hm, hr⟩ := h
    have hrec := Except.ok.inj hr
    rw [← hrec]
    exact ⟨sortStr_sorted _, sortStr_sorted _⟩
  · intro p1 p2 d h
    simp only [Fgdc.compare_properties] at h
    split_ifs at h with hc
    obtain rfl := Option.some.inj h
    exact ⟨keyedDiffSorted_new_sorted _ _ _ _, keyedDiffSorted_removed_sorted _ _ _ _⟩
  · intro i1 i2 t d h
    simp only [Fgdc.compare_io] at h
    split_ifs at h with hc
    obtain rfl := Option.some.inj h
    exact ⟨keyedDiffSorted_new_sorted _ _ _ _, keyedDiffSorted_removed_sorted _ _ _ _⟩

/-- C2 witness: the amended sortedness theorem applied to the concrete
comparison of an empty schema against one holding entities named b and
a. -/
theorem c2_sorted_lists_amended_witness :
    List.Sorted strLE baReport.new_entities ∧ List.Sorted strLE baReport.removed_entities :=
  c2_sorted_lists_amended.1 emptyFgd baSchema baReport (by decide)

theorem string_data_injective : Function.Injective String.data :=
  fun _ _ h => String.toList_inj.mp h

theorem argsdata_inj {a b : List String} (h : a.map String.data = b.map String.data) : a = b :=
  List.map_injective_iff.mpr string_data_injective h

instance : IsTotal FgdDefClause clauseLE := by
  constructor
  intro c d
  rcases lt_trichotomy (c.args.map String.data) (d.args.map String.data) with h | h | h
  · exact Or.inl (Or.inl h)
  · rcases le_total c.name.data d.name.data with hn | hn
    · exact Or.inl (Or.inr ⟨h, hn⟩)
    · exact Or.inr (Or.inr ⟨h.symm, hn⟩)
  · exact Or.inr (Or.inl h)

instance : IsTrans FgdDefClause clauseLE := by
  constructor
  intro a b c hab hbc
  rcases hab with h1 | ⟨h1, hn1⟩
  · rcases hbc with h2 | ⟨h2, hn2⟩
    · exact Or.inl (lt_trans h1 h2)
    · exact Or.inl (h2 ▸ h1)
  · rcases hbc with h2 | ⟨h2, hn2⟩
    · exact Or.inl (h1 ▸ h2)
    · exact Or.inr ⟨h1.trans h2, hn1.trans hn2⟩

instance : IsAntisymm FgdDefClause clauseLE := by
  constructor
  intro a b hab hba
  rcases hab with h1 | ⟨h1, hn1⟩
  · rcases hba with h2 | ⟨h2, hn2⟩
    · exact absurd h2 (lt_asymm h1)
    · rw [h2] at h1; exact absurd h1 (lt_irrefl _)
  · rcases hba with h2 | ⟨h2, hn2⟩
    · rw [h1] at h2; exact absurd h2 (lt_irrefl _)
    · have hargs : a.args = b.args := argsdata_inj h1
      have hname : a.name = b.name := string_data_injective (le_antisymm hn1 hn2)
      cases a; cases b
      simp only [FgdDefClause.mk.injEq]
      exact ⟨hname, hargs⟩

theorem sortClauses_sorted (l : List FgdDefClause) :
    List.Sorted clauseLE (Ccs.sortClauses l) :=
  List.sorted_insertionSort clauseLE l

theorem sortClauses_perm (l : List FgdDefClause) : (Ccs.sortClauses l).Perm l :=
  List.perm_insertionSort clauseLE l

theorem sortClauses_eq_iff (l1 l2 : List FgdDefClause) :
    Ccs.sortClauses l1 = Ccs.sortClauses l2 ↔
      (l1 : Multiset FgdDefClause) = (l2 : Multiset FgdDefClause) := by
  rw [Multiset.coe_eq_coe]
  constructor
  · intro h
    have p1 := sortClauses_perm l1
    have p2 := sortClauses_perm l2
    rw [h] at p1
    exact (p2.symm.trans p1).symm
  · intro h
    exact List.eq_of_perm_of_sorted
      ((sortClauses_perm l1).trans (h.trans (sortClauses_perm l2).symm))
      (sortClauses_sorted l1) (sortClauses_sorted l2)

/-- C5 counterexample: fgdcomparator.compare_definitions reports no
difference for two clause lists whose non-base clauses differ (their
clause multisets differ), and it does report a difference, with empty
added and removed sets, for the same base clauses merely reordered; so
neither the order-insensitive multiset condition nor the
order-insensitive base-set condition describes it. -/
theorem c5_counterexample :
    (Fgdc.compare_definitions [baseA, sizeClause] [baseA, colorClause] = none
      ∧ ¬ ((([baseA, sizeClause] : List FgdDefClause) : Multiset FgdDefClause)
            = (([baseA, colorClause] : List FgdDefClause) : Multiset FgdDefClause)))
    ∧ Fgdc.compare_definitions [baseA, baseB] [baseB, baseA] =
        some { css := [baseA, baseB], csgo := [baseB, baseA], added := [], removed := [] } := by
  refine ⟨⟨by decide, ?_⟩, by decide⟩
  intro h
  rw [Multiset.coe_eq_coe] at h
  have hm := h.mem_iff (a := sizeClause)
  simp [baseA, sizeClause, colorClause] at hm

/-- C5 (amended): fgdcomparator.compare_definitions compares only the
base clauses and compares them as ordered lists: it reports no
difference exactly when the two base-clause lists are equal in order,
and non-base clauses never influence the result;
csgo_to_css_comparison instead compares the full clause lists after
sorting, i.e. it finds the lists equal exactly when their clause
multisets coincide. -/
theorem c5_definitions_amended (cd gd : List FgdDefClause) :
    (Fgdc.compare_definitions cd gd = none ↔
      cd.filter Fgdc.isBaseClause = gd.filter Fgdc.isBaseClause)
    ∧ (Fgdc.compare_definitions cd gd =
        Fgdc.compare_definitions (cd.filter Fgdc.isBaseClause) (gd.filter Fgdc.isBaseClause))
    ∧ (Ccs.sortClauses cd = Ccs.sortClauses gd ↔
        (cd : Multiset FgdDefClause) = (gd : Multiset FgdDefClause)) := by
  have hid : ∀ l : List FgdDefClause,
      (l.filter Fgdc.isBaseClause).filter Fgdc.isBaseClause = l.filter Fgdc.isBaseClause := by
    intro l
    rw [List.filter_filter]
    simp [Bool.and_self]
  refine ⟨?_, ?_, sortClauses_eq_iff cd gd⟩
  · rw [Fgdc.compare_definitions]
    split_ifs with h
    · simp [h]
    · simp [h]
  · rw [Fgdc.compare_definitions, Fgdc.compare_definitions, hid, hid]

/-- C6 counterexample: a duplicate normalized property key is silently
collapsed, not rejected: with css properties Foo and FOO (same
lower-cased key, defaults 1 and 2) against csgo property foo (default
1), compare_properties returns an ordinary diff whose only entry shows
old value 2, proving the first duplicate was discarded and only the
last survivor compared, with no error raised; likewise two css
spawnflags sharing bit value 1 collapse to the last one and compare
clean against it. -/
theorem c6_counterexample :
    Fgdc.compare_properties [pFooOne, pFOOTwo] [qfooOne] =
      some { new := [], removed := [],
             modified := [("foo",
               { Fgdc.emptyPropItemDiff with default_value := some ("2", "1") })] }
    ∧ Fgdc.compare_spawnflags [dupFlagA, dupFlagB] [dupFlagB] = Except.ok none := by
  constructor
  · decide
  · decide

/-- C6 (amended): on a duplicated normalized key the dict comprehension
keeps the last entry: comparing css properties p1, p2 sharing one
lower-cased name against a csgo property q with the same key produces
no error and exactly the diff of the survivor p2 against q, keyed by
the original-cased csgo name; p1 is never consulted. -/
theorem c6_silent_overwrite_amended (p1 p2 q : FgdEntityProperty)
    (h1 : pyLower p1.name = pyLower p2.name) (h2 : pyLower p2.name = pyLower q.name) :
    Fgdc.compare_properties [p1, p2] [q] =
      match Fgdc.compare_property p2 q with
      | none => none
      | some d => some { new := [], removed := [], modified := [(q.name, d)] } := by
  cases hcmp : Fgdc.compare_property p2 q with
  | none =>
    simp [Fgdc.compare_properties, Fgdc.keyedDiffSorted, dictOf, dinsert, dkeys, dlookup,
      sortStr, h1, h2, hcmp]
  | some d =>
    simp [Fgdc.compare_properties, Fgdc.keyedDiffSorted, dictOf, dinsert, dkeys, dlookup,
      sortStr, h1, h2, hcmp]

/-- C6 witness: the silent-overwrite theorem applied to the concrete
duplicate-key properties. -/
theorem c6_silent_overwrite_amended_witness :
    Fgdc.compare_properties [pFooOne, pFOOTwo] [qfooOne] =
      match Fgdc.compare_property pFOOTwo qfooOne with
      | none => none
      | some d => some { new := [], removed := [], modified := [(qfooOne.name, d)] } :=
  c6_silent_overwrite_amended pFooOne pFOOTwo qfooOne (by decide) (by decide)

theorem except_error_bind {ε α β : Type} (e : ε) (f : α → Except ε β) :
    ((Except.error e : Except ε α) >>= f) = Except.error e := rfl

/-- C7 counterexample: fgdcomparator.compare_spawnflags aborts with an
error on a non-integer flag value instead of warning, skipping the flag
and completing. -/
theorem c7_counterexample :
    Fgdc.compare_spawnflags [badFlag] [goodFlag] =
      Except.error "invalid literal for int() with base 10: banana" := by
  decide

theorem flagGroups_fold_filter :
    ∀ (l : List FgdEntitySpawnflag) (g : List (Int × List FgdEntitySpawnflag)),
      l.foldl (fun g2 fl =>
        match pyParseInt fl.value with
        | some v => gappend v fl g2
        | none => g2) g
      = (l.filter (fun fl => (pyParseInt fl.value).isSome)).foldl (fun g2 fl =>
          match pyParseInt fl.value with
          | some v => gappend v fl g2
          | none => g2) g := by
  intro l
  induction l with
  | nil => intro g; rfl
  | cons fl fls ih =>
    intro g
    cases hv : pyParseInt fl.value with
    | none => simp [List.foldl_cons, List.filter_cons, hv, ih]
    | some v => simp [List.foldl_cons, List.filter_cons, hv, ih]

theorem flagGroups_filter (l : List FgdEntitySpawnflag) :
    flagGroups l = flagGroups (l.filter (fun fl => (pyParseInt fl.value).isSome)) := by
  rw [flagGroups, flagGroups]
  exact flagGroups_fold_filter l []

theorem flagGroupsWarn_fold_snd (label : String) :
    ∀ (l : List FgdEntitySpawnflag) (g : List (Int × List FgdEntitySpawnflag)) (w : List String),
      (l.foldl (fun acc fl =>
          match pyParseInt fl.value with
          | some v => (gappend v fl acc.1, acc.2)
          | none => (acc.1, acc.2 ++ ["Invalid flag value in " ++ label ++ " FGD: " ++ fl.value]))
        (g, w)).2
      = w ++ (l.filter (fun fl => (pyParseInt fl.value).isNone)).map
          (fun fl => "Invalid flag value in " ++ label ++ " FGD: " ++ fl.value) := by
  intro l
  induction l with
  | nil => intro g w; simp
  | cons fl fls ih =>
    intro g w
    cases hv : pyParseInt fl.value with
    | none => simp [List.foldl_cons, List.filter_cons, hv, ih]
    | some v => simp [List.foldl_cons, List.filter_cons, hv, ih]

theorem flagGroupsWarn_snd (label : String) (l : List FgdEntitySpawnflag) :
    (Ccs.flagGroupsWarn label l).2
      = (l.filter (fun fl => (pyParseInt fl.value).isNone)).map
          (fun fl => "Invalid flag value in " ++ label ++ " FGD: " ++ fl.value) := by
  rw [Ccs.flagGroupsWarn]
  rw [flagGroupsWarn_fold_snd label l [] []]
  simp

theorem flagDict_fold_error :
    ∀ (l : List FgdEntitySpawnflag), (∃ fl ∈ l, pyParseInt fl.value = none) →
      ∃ e, ∀ init, l.foldlM (fun d fl =>
          match pyParseInt fl.value with
          | some v => Except.ok (dinsert v fl d)
          | none => Except.error ("invalid literal for int() with base 10: " ++ fl.value)) init
        = Except.error (ε := String) e := by
  intro l
  induction l with
  | nil => rintro ⟨fl, h, _⟩; cases h
  | cons fl fls ih =>
    rintro ⟨x, hx, hpx⟩
    cases hv : pyParseInt fl.value with
    | none =>
      refine ⟨"invalid literal for int() with base 10: " ++ fl.value, fun init => ?_⟩
      simp [List.foldlM_cons, hv, except_error_bind]
    | some v =>
      have hxfls : x ∈ fls := by
        rcases List.mem_cons.mp hx with rfl | h
        · rw [hv] at hpx; cases hpx
        · exact h
      obtain ⟨e, he⟩ := ih ⟨x, hxfls, hpx⟩
      refine ⟨e, fun init => ?_⟩
      simp only [List.foldlM_cons, hv, except_ok_bind]
      exact he _

/-- C7 (amended): only csgo_to_css_comparison recovers from a
non-integer spawnflag value: its diff result equals the diff of the
parseable flags alone, and each unparseable flag contributes exactly
one printed warning; fgdcomparator instead aborts the whole comparison
with an error as soon as one flag value fails to parse. -/
theorem c7_bad_flag_amended (css csgo : List FgdEntitySpawnflag) :
    ((Ccs.compare_spawnflags css csgo).1 =
      (Ccs.compare_spawnflags (css.filter (fun fl => (pyParseInt fl.value).isSome))
        (csgo.filter (fun fl => (pyParseInt fl.value).isSome))).1)
    ∧ ((Ccs.compare_spawnflags css csgo).2 =
      (css.filter (fun fl => (pyParseInt fl.value).isNone)).map
        (fun fl => "Invalid flag value in CS:S FGD: " ++ fl.value)
      ++ (csgo.filter (fun fl => (pyParseInt fl.value).isNone)).map
        (fun fl => "Invalid flag value in CS:GO FGD: " ++ fl.value))
    ∧ (∀ fl ∈ css, pyParseInt fl.value = none →
        ∃ e, Fgdc.compare_spawnflags css csgo = Except.error e) := by
  refine ⟨?_, ?_, ?_⟩
  · rw [Ccs.compare_spawnflags, Ccs.compare_spawnflags]
    simp only [flagGroupsWarn_fst]
    rw [flagGroups_filter css, flagGroups_filter csgo]
  · rw [Ccs.compare_spawnflags]
    simp only [flagGroupsWarn_snd]
    have hs1 : "Invalid flag value in " ++ "CS:S" ++ " FGD: " =
        "Invalid flag value in CS:S FGD: " := by decide
    have hs2 : "Invalid flag value in " ++ "CS:GO" ++ " FGD: " =
        "Invalid flag value in CS:GO FGD: " := by decide
    rw [hs1, hs2]
  · intro fl hfl hp
    obtain ⟨e, he⟩ := flagDict_fold_error css ⟨fl, hfl, hp⟩
    refine ⟨e, ?_⟩
    rw [Fgdc.compare_spawnflags, Fgdc.flagDict, he, except_error_bind]

/-- C7 witness: the amended theorem applied to a concrete list holding
one unparseable flag. -/
theorem c7_bad_flag_amended_witness :
    ((Ccs.compare_spawnflags [badFlag] []).1 =
      (Ccs.compare_spawnflags ([badFlag].filter (fun fl => (pyParseInt fl.value).isSome))
        (([] : List FgdEntitySpawnflag).filter (fun fl => (pyParseInt fl.value).isSome))).1)
    ∧ (∃ e, Fgdc.compare_spawnflags [badFlag] [] = Except.error e) :=
  ⟨(c7_bad_flag_amended [badFlag] []).1,
   (c7_bad_flag_amended [badFlag] []).2.2 badFlag (by decide) (by decide)⟩

/-- C9 counterexample: an input named Foo in the old entity and an
output named Foo in the new entity are never matched, because
compare_entity diffs inputs and outputs in two separate passes; the
pair is reported as one removed input plus one added output, and no
type-mismatch record appears anywhere in the entity diff. -/
theorem c9_counterexample :
    Ccs.compare_entity ioEntOld ioEntNew =
      { Ccs.emptyCEntityDiff with
        inputs := some { new := [], removed := ["foo"], modified := [] },
        outputs := some { new := ["foo"], removed := [], modified := [] } } := by
  decide

/-- C9 (amended): the csgo_to_css_comparison item comparator does
report an explicit type record when handed one input and one output,
but compare_entity only ever hands it two inputs or two outputs (the
inputs and outputs fields are diffed in separate passes), so a
cross-direction pair sharing a name surfaces as an unrelated add plus
remove; the fgdcomparator item comparator never inspects direction at
all. -/
theorem c9_io_direction_amended (a b : FgdIOItem) (h : a.direction ≠ b.direction) :
    Ccs.compare_io_item a b =
      some { type_tag := some (Ccs.ioClassName a.direction, Ccs.ioClassName b.direction),
             value_type := none, description := none }
    ∧ (∀ e1 e2 : FgdEntity,
        (Ccs.compare_entity e1 e2).inputs = Ccs.compare_io e1.inputs e2.inputs
        ∧ (Ccs.compare_entity e1 e2).outputs = Ccs.compare_io e1.outputs e2.outputs)
    ∧ (∀ x y : FgdIOItem, x.value_type = y.value_type → x.description = y.description →
        Fgdc.compare_io_item x y = none) := by
  refine ⟨?_, ?_, ?_⟩
  · rw [Ccs.compare_io_item, if_pos h]
  · intro e1 e2; exact ⟨rfl, rfl⟩
  · intro x y hv hd
    simp [Fgdc.compare_io_item, diffField, hv, hd]

/-- C9 witness: the amended theorem applied to a concrete input and
output sharing the name Foo. -/
theorem c9_io_direction_amended_witness :
    Ccs.compare_io_item
      { direction := .input, name := "Foo", value_type := "void", description := "" }
      { direction := .output, name := "Foo", value_type := "void", description := "" } =
      some { type_tag := some ("FgdEntityInput", "FgdEntityOutput"),
             value_type := none, description := none } :=
  (c9_io_direction_amended
    { direction := .input, name := "Foo", value_type := "void", description := "" }
    { direction := .output, name := "Foo", value_type := "void", description := "" }
    (by decide)).1

theorem mem_dinsert {κ α : Type} [DecidableEq κ] (k : κ) (v : α) :
    ∀ (d : List (κ × α)) (p : κ × α), p ∈ dinsert k v d → p = (k, v) ∨ p ∈ d := by
  intro d
  induction d with
  | nil =>
    intro p hp
    rw [dinsert] at hp
    rcases List.mem_cons.mp hp with h | h
    · exact Or.inl h
    · cases h
  | cons q rest ih =>
    intro p hp
    rw [dinsert] at hp
    by_cases hq : q.1 = k
    · rw [if_pos hq] at hp
      rcases List.mem_cons.mp hp with h | h
      · exact Or.inl h
      · exact Or.inr (List.mem_cons_of_mem q h)
    · rw [if_neg hq] at hp
      rcases List.mem_cons.mp hp with h | h
      · exact Or.inr (h ▸ List.mem_cons_self q rest)
      · rcases ih p h with h2 | h2
        · exact Or.inl h2
        · exact Or.inr (List.mem_cons_of_mem q h2)

theorem dictOf_fold_values {κ α : Type} [DecidableEq κ] (keyOf : α → κ) :
    ∀ (l : List α) (d0 : List (κ × α)) (p : κ × α),
      p ∈ l.foldl (fun d x => dinsert (keyOf x) x d) d0 → p.2 ∈ l ∨ p ∈ d0 := by
  intro l
  induction l with
  | nil => intro d0 p hp; exact Or.inr hp
  | cons x xs ih =>
    intro d0 p hp
    rw [List.foldl_cons] at hp
    rcases ih (dinsert (keyOf x) x d0) p hp with h | h
    · exact Or.inl (List.mem_cons_of_mem x h)
    · rcases mem_dinsert (keyOf x) x d0 p h with h2 | h2
      · exact Or.inl (h2 ▸ List.mem_cons_self x xs)
      · exact Or.inr h2

theorem dictOf_values_mem {κ α : Type} [DecidableEq κ] (keyOf : α → κ) (l : List α)
    (p : κ × α) (hp : p ∈ dictOf keyOf l) : p.2 ∈ l := by
  rw [dictOf] at hp
  rcases dictOf_fold_values keyOf l [] p hp with h | h
  · exact h
  · cases h

theorem dlookup_mem {κ α : Type} [DecidableEq κ] (k : κ) :
    ∀ (d : List (κ × α)) (v : α), dlookup k d = some v → (k, v) ∈ d := by
  intro d
  induction d with
  | nil => intro v hv; cases hv
  | cons p rest ih =>
    intro v hv
    obtain ⟨pk, pv⟩ := p
    rw [dlookup] at hv
    by_cases hp : pk = k
    · subst hp
      rw [if_pos rfl] at hv
      have hv2 : pv = v := Option.some.inj hv
      rw [← hv2]
      exact List.mem_cons_self _ _
    · rw [if_neg hp] at hv
      exact List.mem_cons_of_mem _ (ih v hv)

theorem keyed_mod_fold_keys {α β : Type} (itemCmp : α → α → Option β) (nameOf : α → String)
    (cssD csgoD : List (String × α)) (P : String → Prop)
    (hP : ∀ k b, dlookup k csgoD = some b → P (nameOf b)) :
    ∀ (ks : List String) (acc : List (String × β)), (∀ x ∈ acc, P x.1) →
      ∀ x ∈ ks.foldl (fun acc k =>
        match dlookup k cssD, dlookup k csgoD with
        | some a, some b =>
          match itemCmp a b with
          | some d => dinsert (nameOf b) d acc
          | none => acc
        | _, _ => acc) acc, P x.1 := by
  intro ks
  induction ks with
  | nil => intro acc hacc x hx; exact hacc x hx
  | cons k ks ih =>
    intro acc hacc x hx
    cases h1 : dlookup k cssD with
    | none =>
      simp only [List.foldl_cons, h1] at hx
      exact ih acc hacc x hx
    | some a =>
      cases h2 : dlookup k csgoD with
      | none =>
        simp only [List.foldl_cons, h1, h2] at hx
        exact ih acc hacc x hx
      | some b =>
        cases h3 : itemCmp a b with
        | none =>
          simp only [List.foldl_cons, h1, h2, h3] at hx
          exact ih acc hacc x hx
        | some d =>
          simp only [List.foldl_cons, h1, h2, h3] at hx
          refine ih (dinsert (nameOf b) d acc) ?_ x hx
          intro y hy
          rcases mem_dinsert (nameOf b) d acc y hy with h4 | h4
          · rw [h4]; exact hP k b h2
          · exact hacc y h4

theorem keyedDiff_modified_keys {α β : Type} (itemCmp : α → α → Option β) (nameOf : α → String)
    (l1 l2 : List α) :
    ∀ x ∈ (Ccs.keyedDiff itemCmp nameOf l1 l2).modified, x.1 ∈ l2.map nameOf := by
  intro x hx
  simp only [Ccs.keyedDiff] at hx
  refine keyed_mod_fold_keys itemCmp nameOf _ _ (fun s => s ∈ l2.map nameOf) ?_ _ []
    (by intro y hy; cases hy) x hx
  intro k b hb
  have hmem := dlookup_mem k _ b hb
  have hbl : b ∈ l2 := dictOf_values_mem (fun y => pyLower (nameOf y)) l2 (k, b) hmem
  exact List.mem_map_of_mem nameOf hbl

theorem keyedDiffSorted_modified_keys {α β : Type} (itemCmp : α → α → Option β)
    (nameOf : α → String) (l1 l2 : List α) :
    ∀ x ∈ (Fgdc.keyedDiffSorted itemCmp nameOf l1 l2).modified, x.1 ∈ l2.map nameOf := by
  intro x hx
  simp only [Fgdc.keyedDiffSorted] at hx
  refine keyed_mod_fold_keys itemCmp nameOf _ _ (fun s => s ∈ l2.map nameOf) ?_ _ []
    (by intro y hy; cases hy) x hx
  intro k b hb
  have hmem := dlookup_mem k _ b hb
  have hbl : b ∈ l2 := dictOf_values_mem (fun y => pyLower (nameOf y)) l2 (k, b) hmem
  exact List.mem_map_of_mem nameOf hbl

/-- C4 counterexample: matching lower-cases but does not trim: an
entity named func_door followed by a trailing space in the old schema
and FUNC_DOOR in the new schema are not treated as the same entity;
they are reported as one removed and one added entity with a High
backward-porting issue, where the claim predicts a match with zero
name-level diff. -/
theorem c4_counterexample :
    Fgdc.compare_fgds trailSchemaOld trailSchemaNew =
      Except.ok { new_entities := ["func_door"], removed_entities := ["func_door "],
                  modified_entities := [],
                  backward_porting_issues := [highIssueFor "func_door"] } := by
  decide

/-- C4 (amended): matching is by lower-cased name only, with no
trimming, and the reported keys keep the original casing of the new
side: two singleton schemas whose entity names agree after
lower-casing produce no added and no removed entities and key any
modified entry by the new schema's original entity name; and every key
of a modified-properties map produced by either variant is one of the
new side's original property names. -/
theorem c4_casing_amended (ce ge : FgdEntity) (h : pyLower ce.name = pyLower ge.name) :
    ((Ccs.compare_fgds { entities := [ce], editor_data := [] }
        { entities := [ge], editor_data := [] }).new_entities = []
    ∧ (Ccs.compare_fgds { entities := [ce], editor_data := [] }
        { entities := [ge], editor_data := [] }).removed_entities = []
    ∧ ∀ x ∈ (Ccs.compare_fgds { entities := [ce], editor_data := [] }
        { entities := [ge], editor_data := [] }).modified_entities, x.1 = ge.name)
    ∧ (∀ l1 l2 : List FgdEntityProperty, ∀ d, Ccs.compare_properties l1 l2 = some d →
        ∀ x ∈ d.modified, x.1 ∈ l2.map (fun p => p.name))
    ∧ (∀ l1 l2 : List FgdEntityProperty, ∀ d, Fgdc.compare_properties l1 l2 = some d →
        ∀ x ∈ d.modified, x.1 ∈ l2.map (fun p => p.name)) := by
  refine ⟨⟨?_, ?_, ?_⟩, ?_, ?_⟩
  · simp [Ccs.compare_fgds, Fgdc.entityNames, dedupFirst, dedupFirstAux, h]
  · simp [Ccs.compare_fgds, Fgdc.entityNames, dedupFirst, dedupFirstAux, h]
  · intro x hx
    by_cases hd : Ccs.compare_entity ce ge = Ccs.emptyCEntityDiff
    · simp [Ccs.compare_fgds, Fgdc.entityNames, Fgdc.findEntity, dedupFirst, dedupFirstAux,
        h, hd, dinsert] at hx
    · simp [Ccs.compare_fgds, Fgdc.entityNames, Fgdc.findEntity, dedupFirst, dedupFirstAux,
        h, hd, dinsert] at hx
      rw [hx]
  · intro l1 l2 d hd x hx
    simp only [Ccs.compare_properties] at hd
    split_ifs at hd with h1 h2
    obtain rfl := Option.some.inj hd
    exact keyedDiff_modified_keys _ _ l1 l2 x hx
  · intro l1 l2 d hd x hx
    simp only [Fgdc.compare_properties] at hd
    split_ifs at hd with h1
    obtain rfl := Option.some.inj hd
    exact keyedDiffSorted_modified_keys _ _ l1 l2 x hx

/-- C4 witness: the amended casing theorem applied to entities named
func_Door and FUNC_DOOR. -/
theorem c4_casing_amended_witness :
    (Ccs.compare_fgds { entities := [mkEntity "func_Door"], editor_data := [] }
        { entities := [mkEntity "FUNC_DOOR"], editor_data := [] }).new_entities = []
    ∧ (Ccs.compare_fgds { entities := [mkEntity "func_Door"], editor_data := [] }
        { entities := [mkEntity "FUNC_DOOR"], editor_data := [] }).removed_entities = [] :=
  ⟨(c4_casing_amended (mkEntity "func_Door") (mkEntity "FUNC_DOOR") (by decide)).1.1,
   (c4_casing_amended (mkEntity "func_Door") (mkEntity "FUNC_DOOR") (by decide)).1.2.1⟩

theorem mem_entityNames (f : Fgd) (n : String) :
    n ∈ Fgdc.entityNames f ↔ ∃ e ∈ f.entities, pyLower e.name = n := by
  rw [Fgdc.entityNames, mem_dedupFirst]
  simp [List.mem_map]

theorem nodup_entityNames (f : Fgd) : (Fgdc.entityNames f).Nodup :=
  nodup_dedupFirst _

theorem findEntity_isSome_of_mem (f : Fgd) (n : String) (hn : n ∈ Fgdc.entityNames f) :
    ∃ e, Fgdc.findEntity f n = some e := by
  rw [mem_entityNames] at hn
  obtain ⟨e, he, hname⟩ := hn
  have hs : (f.entities.find? (fun e2 => decide (pyLower e2.name = n))).isSome := by
    rw [List.find?_isSome]
    exact ⟨e, he, by simp [hname]⟩
  obtain ⟨e2, he2⟩ := Option.isSome_iff_exists.mp hs
  exact ⟨e2, he2⟩

theorem findEntity_eq_none (f : Fgd) (n : String) :
    Fgdc.findEntity f n = none ↔ ¬ n ∈ Fgdc.entityNames f := by
  rw [Fgdc.findEntity, List.find?_eq_none, mem_entityNames]
  constructor
  · rintro h ⟨e, he, hn⟩
    have := h e he
    simp [hn] at this
  · intro h e he
    simp only [decide_eq_true_eq]
    intro hc
    exact h ⟨e, he, hc⟩

theorem porting_issue_entity (css csgo : Fgd) (m : String) :
    ∀ i ∈ Fgdc.porting_issues_for css csgo m, i.entity = m := by
  intro i hi
  rw [Fgdc.porting_issues_for] at hi
  cases h1 : Fgdc.findEntity csgo m with
  | none =>
    rw [h1] at hi
    cases hi
  | some ge =>
    cases h2 : Fgdc.findEntity css m with
    | none =>
      rw [h1, h2] at hi
      rcases List.mem_cons.mp hi with h | h
      · rw [h]
      · cases h
    | some ce =>
      rw [h1, h2] at hi
      rw [List.mem_map] at hi
      obtain ⟨p, hp, hpi⟩ := hi
      rw [← hpi]

theorem filter_flatMap_single {β : Type} (g : String → List β) (ent : β → String)
    (hg : ∀ m i, i ∈ g m → ent i = m) :
    ∀ (ns : List String), ns.Nodup → ∀ n ∈ ns,
      (ns.flatMap g).filter (fun i => decide (ent i = n)) = g n := by
  intro ns
  induction ns with
  | nil => intro _ n hn; cases hn
  | cons m ms ih =>
    intro hnd n hn
    rw [List.flatMap_cons, List.filter_append]
    rcases List.mem_cons.mp hn with rfl | hn2
    · have h1 : (g n).filter (fun i => decide (ent i = n)) = g n := by
        rw [List.filter_eq_self]
        intro a ha
        simp [hg n a ha]
      have h2 : (ms.flatMap g).filter (fun i => decide (ent i = n)) = [] := by
        rw [List.filter_eq_nil_iff]
        intro a ha
        rw [List.mem_flatMap] at ha
        obtain ⟨m2, hm2, ha2⟩ := ha
        have hent := hg m2 a ha2
        have hne : m2 ≠ n := fun hc => (List.nodup_cons.mp hnd).1 (hc ▸ hm2)
        simp [hent, hne]
      rw [h1, h2, List.append_nil]
    · have hne : m ≠ n := fun hc => (List.nodup_cons.mp hnd).1 (hc ▸ hn2)
      have h1 : (g m).filter (fun i => decide (ent i = n)) = [] := by
        rw [List.filter_eq_nil_iff]
        intro a ha
        simp [hg m a ha, hne]
      rw [h1, List.nil_append]
      exact ih (List.nodup_cons.mp hnd).2 n hn2

/-- C8 counterexample: with entity ent matched in both schemas and one
property whose name differs only in casing (Foo on the old side, foo on
the new side, all other fields equal), the backward-porting list gains
a Medium entry for foo while modified_entities is empty, so no
added-properties set contains it: the issue list disagrees with the
per-entity added sets, which match property names after lower-casing
while the issue list compares raw names. -/
theorem c8_counterexample :
    Fgdc.compare_fgds caseSchemaOld caseSchemaNew = Except.ok caseReport := by
  decide

/-- C8 (amended): filtered to any normalized entity name n of the new
schema, the backward-porting issue list holds exactly one High entry
when n is absent from the old schema, and otherwise exactly the Medium
entries for the property names, in original casing, that occur in the
matched new entity but not, by exact string comparison, among the old
entity's property names; this agrees with the per-entity
added-properties sets only when property-name casing is consistent
across the two schemas. -/
theorem c8_backward_issues_amended (css csgo : Fgd) (r : Fgdc.Report)
    (h : Fgdc.compare_fgds css csgo = Except.ok r) :
    ∀ n ∈ Fgdc.entityNames csgo,
      (¬ n ∈ Fgdc.entityNames css →
        r.backward_porting_issues.filter (fun i => decide (i.entity = n)) = [highIssueFor n])
      ∧ (∀ ce ge, Fgdc.findEntity css n = some ce → Fgdc.findEntity csgo n = some ge →
          r.backward_porting_issues.filter (fun i => decide (i.entity = n)) =
            ((dedupFirst (ge.properties.map (fun p => p.name))).filter
              (fun p => decide (¬ p ∈ ce.properties.map (fun q => q.name)))).map
              (fun p => { entity := n, property := some p,
                          issue := "Property exists in CSGO but not in CSS",
                          severity := "Medium" })) := by
  rw [Fgdc.compare_fgds, except_bind_ok_iff] at h
  obtain ⟨m, hm, hr⟩ := h
  have hrec := Except.ok.inj hr
  have hiss0 := congrArg Fgdc.Report.backward_porting_issues hrec
  dsimp only at hiss0
  rw [foldl_append_flatMap (Fgdc.porting_issues_for css csgo)] at hiss0
  rw [List.nil_append] at hiss0
  intro n hn
  have hfil := filter_flatMap_single (Fgdc.porting_issues_for css csgo) (fun i => i.entity)
    (porting_issue_entity css csgo) (Fgdc.entityNames csgo) (nodup_entityNames csgo) n hn
  constructor
  · intro hnot
    obtain ⟨ge, hge⟩ := findEntity_isSome_of_mem csgo n hn
    have hnone : Fgdc.findEntity css n = none := (findEntity_eq_none css n).mpr hnot
    rw [← hiss0, hfil, Fgdc.porting_issues_for, hge, hnone]
    rfl
  · intro ce ge hce hge
    rw [← hiss0, hfil, Fgdc.porting_issues_for, hge, hce]

/-- C8 witness: the amended theorem applied to an empty old schema and
a new schema holding one entity named newt, giving exactly one High
entry for it. -/
theorem c8_backward_issues_amended_witness :
    newtReport.backward_porting_issues.filter (fun i => decide (i.entity = "newt"))
      = [highIssueFor "newt"] :=
  ((c8_backward_issues_amended emptyFgd newtSchema newtReport (by decide)) "newt"
    (by decide)).1 (by decide)
